import Mathlib

/-!
Verification development for `tensorflow/compiler/xla/python/local_client.cc`.

The C++ source is shallowly embedded as executable Lean definitions:

* `Status` / `Outcome` model `xla::Status` results; `Outcome.crash` models a
  process-level failure (an `absl::optional` accessed while empty aborts or
  throws rather than returning a `Status`), which is distinct from returning
  an error `Status` up the call chain.
* `Shape` models `xla::Shape` restricted to what the file manipulates: an
  array with an optional layout, or a tuple of subshapes.
* `BufTree` models a `(Scoped)ShapedBuffer`: one device-memory handle per
  node of the shape tree (interior tuple nodes own the tuple index tables).
  A `DeviceMemoryBase` is an address plus the host data currently stored
  there (the stored data stands in for the bytes written by the transfer
  manager).
* External collaborators (transfer manager, stream pool, executable `Run`,
  compiler, placer) are fields of explicit environment records (`Env`,
  `CompileEnv`), so theorems quantify over their behaviour; the parts of
  their semantics that a claim needs and that are not in the source file are
  modelled from the specification and marked as such.
* Stateful effects that the claims are about (stream borrowing, device
  allocation, asynchronous copy submission, host-blocking waits) are made
  observable through an event trace threaded as explicit state (`TState`).
  Transfers in a batch share no mutable state in the source (each writes its
  own `transfers[i]` slot and its own stream), so running them in index
  order in the model is observationally equivalent to the thread-pool
  dispatch in the source.
-/

/-! Characterization infrastructure.  `writeLeavesP` is the pure content of
the leaf-copy loop (outcome plus number of submitted copies); the equation
lemmas below relate the state-threaded definitions to it. -/

/-! Pure views of the transfer functions: the outcome, the next free device
address, and the emitted events, each as a function of the pre-state
components the threaded definitions actually consume. -/

/-! Concrete instances used by witnesses and counterexamples. -/

/-- Error codes of the `xla::Status` values produced in the source file. -/
inductive ErrorCode where
  | invalidArgument
  | notFound
  | internalError
  | unknown
deriving Repr, DecidableEq

/-- Model of `xla::Status` in its error state: an error code plus a message. -/
structure Status where
  code : ErrorCode
  msg : String
deriving Repr, DecidableEq

/-- Model of `xla::AppendStatus`: same error code, extra text appended to the
message. -/
def appendStatus (s : Status) (m : String) : Status :=
  ⟨s.code, s.msg ++ "; " ++ m⟩

/-- Result of an operation as observed by the caller.  `ok` and `err` are the
two states of a `StatusOr`; `crash` models behaviour that never returns to
the caller at all (dereferencing an empty `absl::optional`, which aborts or
throws `bad_optional_access` instead of producing a `Status`). -/
inductive Outcome (α : Type) where
  | ok (a : α)
  | err (e : Status)
  | crash (m : String)

/-- Boolean test for the `ok` state of an `Outcome`. -/
def Outcome.isOk : Outcome α → Bool
  | .ok _ => true
  | _ => false

/-- Boolean test for a returned error `Status` (not a crash). -/
def Outcome.isStatusErr : Outcome α → Bool
  | .err _ => true
  | _ => false

/-- Boolean test for the crash state of an `Outcome`. -/
def Outcome.isCrash : Outcome α → Bool
  | .crash _ => true
  | _ => false

/-- Payload of one leaf array of a host value, as produced by the
host-marshalling collaborator (`GetPythonBufferTree`). -/
abbrev HostLeaf := List Int

/-- Model of `xla::Shape` as used in `local_client.cc`: an array shape with
an optional layout, or a tuple of subshapes.  Dimensions and element types
play no role in any claim and are elided; the layout is an opaque tag. -/
inductive Shape where
  | array (lay : Option Nat)
  | tuple (elems : List Shape)
deriving Repr

mutual
/-- Number of array leaves of a shape, in depth-first order
(`ShapeUtil::GetLeafShapes(shape).size()`). -/
def Shape.leafCount : Shape → Nat
  | .array _ => 1
  | .tuple es => Shape.leafCountList es

/-- Sum of `Shape.leafCount` over a list of subshapes. -/
def Shape.leafCountList : List Shape → Nat
  | [] => 0
  | s :: ss => Shape.leafCount s + Shape.leafCountList ss
end

mutual
/-- Model of `LayoutUtil::ClearLayout`: erase every array layout.  Two shapes
with the same `clearLayouts` image have the same tuple/array structure. -/
def Shape.clearLayouts : Shape → Shape
  | .array _ => .array none
  | .tuple es => .tuple (Shape.clearLayoutsList es)

/-- Pointwise `Shape.clearLayouts` on a list of subshapes. -/
def Shape.clearLayoutsList : List Shape → List Shape
  | [] => []
  | s :: ss => Shape.clearLayouts s :: Shape.clearLayoutsList ss
end

/-- Model of `xla::PythonBufferTree`: the shape of a host value plus its leaf
arrays in depth-first order. -/
structure PythonBufferTree where
  shape : Shape
  leaves : List HostLeaf
deriving Repr

/-- Model of `se::DeviceMemoryBase` together with the bytes currently stored
in the region: a numeric address (0 models the default-constructed null
handle) and the host data last copied in, if any. -/
structure DeviceMemoryBase where
  addr : Nat
  val : Option HostLeaf
deriving Repr, DecidableEq

/-- Model of a `ShapedBuffer` / `ScopedShapedBuffer`: the shape tree with one
device-memory handle per node.  Interior tuple nodes own the tuple index
table allocations; leaves own the array data. -/
inductive BufTree where
  | leafBuf (lay : Option Nat) (mem : DeviceMemoryBase)
  | tupleBuf (mem : DeviceMemoryBase) (children : List BufTree)
deriving Repr

mutual
/-- Shape of a shaped buffer (`ShapedBuffer::on_device_shape`). -/
def BufTree.shapeOf : BufTree → Shape
  | .leafBuf lay _ => .array lay
  | .tupleBuf _ cs => .tuple (BufTree.shapeOfList cs)

/-- Pointwise `BufTree.shapeOf` on a list of buffers. -/
def BufTree.shapeOfList : List BufTree → List Shape
  | [] => []
  | c :: cs => BufTree.shapeOf c :: BufTree.shapeOfList cs
end

mutual
/-- Device memory addresses owned by a shaped buffer, in depth-first
preorder (the root allocation first). -/
def BufTree.regions : BufTree → List Nat
  | .leafBuf _ mem => [mem.addr]
  | .tupleBuf mem cs => mem.addr :: BufTree.regionsList cs

/-- Concatenated `BufTree.regions` over a list of buffers. -/
def BufTree.regionsList : List BufTree → List Nat
  | [] => []
  | c :: cs => BufTree.regions c ++ BufTree.regionsList cs
end

mutual
/-- Data stored at the array leaves of a shaped buffer, in depth-first
order. -/
def BufTree.leafVals : BufTree → List (Option HostLeaf)
  | .leafBuf _ mem => [mem.val]
  | .tupleBuf _ cs => BufTree.leafValsList cs

/-- Concatenated `BufTree.leafVals` over a list of buffers. -/
def BufTree.leafValsList : List BufTree → List (Option HostLeaf)
  | [] => []
  | c :: cs => BufTree.leafVals c ++ BufTree.leafValsList cs
end

mutual
/-- Replace every device-memory handle of a buffer tree by the
default-constructed null handle, modelling the per-element
`*device_memory = se::DeviceMemoryBase()` writes in
`PyLocalBuffer::DestructureTuple`. -/
def BufTree.zero : BufTree → BufTree
  | .leafBuf lay _ => .leafBuf lay ⟨0, none⟩
  | .tupleBuf _ cs => .tupleBuf ⟨0, none⟩ (BufTree.zeroList cs)

/-- Pointwise `BufTree.zero` on a list of buffers. -/
def BufTree.zeroList : List BufTree → List BufTree
  | [] => []
  | c :: cs => BufTree.zero c :: BufTree.zeroList cs
end

/-- Number of array leaves below a buffer tree node. -/
def leafCountB (b : BufTree) : Nat := b.shapeOf.leafCount

/-- Observable effects of the transfer pipeline, in program order: borrowing
a device stream (`Backend::BorrowStream`), allocating a device buffer
(`TransferManager::AllocateScopedShapedBuffer`), enqueueing asynchronous
device work on a stream (`WriteTupleIndexTablesAsync` and each
`TransferLiteralToDeviceAsync`), and blocking the host on a stream
(`Stream::BlockHostUntilDone`).  Stream-tagged events carry the id assigned
to the stream when it was borrowed. -/
inductive Ev where
  | borrow (ordinal : Nat)
  | alloc (streamId : Nat)
  | submitCopy (streamId : Nat)
  | blockHostUntilDone (streamId : Nat)
deriving Repr, DecidableEq

/-- Explicit state threaded through the transfer pipeline: a fresh-address
counter for device allocations, a fresh-id counter for borrowed streams, and
the event trace accumulated so far. -/
structure TState where
  nextAddr : Nat := 1
  nextStream : Nat := 0
  events : List Ev := []
deriving Repr, DecidableEq

/-- Append one event to the trace. -/
def TState.push (st : TState) (e : Ev) : TState :=
  { st with events := st.events ++ [e] }

/-- External collaborators of the transfer pipeline and the executable
dispatcher, abstracted as an environment: the layout service
(`TransferManager::ChooseCompactLayoutForShape`), stream checkout
(`Backend::BorrowStream`, success or failure only; the stream object itself
is identified by the id the model assigns at borrow time), and the compiled
program (`LocalExecutable::Run`, given the device ordinal and the argument
buffers). -/
structure Env where
  chooseCompactLayoutForShape : Shape → Except Status Shape
  borrowStream : Nat → Except Status Unit
  run : Nat → List BufTree → Except Status BufTree

/-- Status used for the `TF_RET_CHECK(it != tree.leaves.end())` failure in
`TransferHostToDeviceAsync`. -/
def retCheckFailed : Status :=
  ⟨.internalError, "RET_CHECK failure it != tree.leaves.end"⟩

mutual
/-- Model of `TransferManager::AllocateScopedShapedBuffer`: one fresh device
region per node of the shape tree, addresses assigned in preorder starting
at `a`; returns the buffer and the next free address.  Freshly allocated
regions hold no host data yet. -/
def allocBuf : Shape → Nat → BufTree × Nat
  | .array lay, a => (.leafBuf lay ⟨a, none⟩, a + 1)
  | .tuple es, a =>
    let r := allocBufList es (a + 1)
    (.tupleBuf ⟨a, none⟩ r.1, r.2)

def allocBufList : List Shape → Nat → List BufTree × Nat
  | [], a => ([], a)
  | s :: ss, a =>
    let r := allocBuf s a
    let r2 := allocBufList ss r.2
    (r.1 :: r2.1, r2.2)
end

mutual
/-- Model of the leaf-copy loop of `TransferHostToDeviceAsync`: walk the leaf
shapes of the allocated buffer in depth-first order, consuming one host leaf
per array leaf; fail with the `TF_RET_CHECK` status when the host leaves run
out early; each successful leaf submits one asynchronous copy on the stream
`sid` (event `submitCopy sid`) and stores the host data in the leaf
region. -/
def writeLeaves (sid : Nat) : BufTree → List HostLeaf → TState →
    (Except Status (BufTree × List HostLeaf)) × TState
  | .leafBuf _ _, [], st => (.error retCheckFailed, st)
  | .leafBuf lay mem, v :: rest, st =>
    (.ok (.leafBuf lay ⟨mem.addr, some v⟩, rest), st.push (.submitCopy sid))
  | .tupleBuf mem cs, leaves, st =>
    match writeLeavesList sid cs leaves st with
    | (.error e, st2) => (.error e, st2)
    | (.ok r, st2) => (.ok (.tupleBuf mem r.1, r.2), st2)

def writeLeavesList (sid : Nat) : List BufTree → List HostLeaf → TState →
    (Except Status (List BufTree × List HostLeaf)) × TState
  | [], leaves, st => (.ok ([], leaves), st)
  | c :: cs, leaves, st =>
    match writeLeaves sid c leaves st with
    | (.error e, st2) => (.error e, st2)
    | (.ok r, st2) =>
      match writeLeavesList sid cs r.2 st2 with
      | (.error e, st3) => (.error e, st3)
      | (.ok r2, st3) => (.ok (r.1 :: r2.1, r2.2), st3)
end

/-- Model of `TransferHostToDeviceAsync` (file-static helper in
`local_client.cc`): resolve a compact layout for the tree shape, allocate a
scoped shaped buffer for it, enqueue the tuple index table writes, then
enqueue one asynchronous copy per leaf; any failure propagates
(`TF_ASSIGN_OR_RETURN` / `TF_RETURN_IF_ERROR`).  The layout failure happens
before the allocation, so it leaves the state untouched. -/
def TransferHostToDeviceAsync (env : Env) (tree : PythonBufferTree)
    (_deviceOrdinal : Nat) (sid : Nat) (st : TState) :
    (Except Status BufTree) × TState :=
  match env.chooseCompactLayoutForShape tree.shape with
  | .error e => (.error e, st)
  | .ok shape =>
    let r := allocBuf shape st.nextAddr
    let st := ({ st with nextAddr := r.2 } : TState).push (.alloc sid)
    -- WriteTupleIndexTablesAsync enqueues device work on the stream.
    let st := st.push (.submitCopy sid)
    match writeLeaves sid r.1 tree.leaves st with
    | (.error e, st2) => (.error e, st2)
    | (.ok r2, st2) => (.ok r2.1, st2)

/-- Model of `PyLocalBuffer`: present-or-consumed ownership of a shaped
buffer (`absl::optional<ScopedShapedBuffer> shaped_buffer_`). -/
structure PyLocalBuffer where
  shaped_buffer_ : Option BufTree

/-- Model of `PyLocalBuffer::FromPython`.  The Python argument has already
been flattened to a `PythonBufferTree` by the host-marshalling collaborator
(`GetPythonBufferTree`); the function borrows a stream for the device,
transfers the tree asynchronously, and then blocks the host on the stream
(`stream->BlockHostUntilDone()`) before returning the buffer. -/
def PyLocalBuffer.FromPython (env : Env) (tree : PythonBufferTree)
    (device_ordinal : Nat) (st : TState) :
    (Except Status PyLocalBuffer) × TState :=
  match env.borrowStream device_ordinal with
  | .error e => (.error e, st)
  | .ok _ =>
    let sid := st.nextStream
    let st := ({ st with nextStream := sid + 1 } : TState).push (.borrow device_ordinal)
    match TransferHostToDeviceAsync env tree device_ordinal sid st with
    | (.error e, st2) => (.error e, st2)
    | (.ok sb, st2) => (.ok ⟨some sb⟩, st2.push (.blockHostUntilDone sid))

/-- Stream-borrowing loop of `PyLocalBuffer::FromPythonValues`: one stream
per argument, in index order; a borrow failure returns immediately
(`TF_ASSIGN_OR_RETURN`).  Returns the ids assigned to the borrowed
streams. -/
def borrowAll (env : Env) : List Nat → TState → (Except Status (List Nat)) × TState
  | [], st => (.ok [], st)
  | o :: os, st =>
    match env.borrowStream o with
    | .error e => (.error e, st)
    | .ok _ =>
      let sid := st.nextStream
      let st := ({ st with nextStream := sid + 1 } : TState).push (.borrow o)
      match borrowAll env os st with
      | (.error e, st2) => (.error e, st2)
      | (.ok sids, st2) => (.ok (sid :: sids), st2)

/-- Transfer phase of `PyLocalBuffer::FromPythonValues`: run
`TransferHostToDeviceAsync` for every argument on its borrowed stream and
record each outcome in its own slot (`transfers[i].buffer`).  The source
dispatches arguments 1..N-1 on the transfer thread pool and argument 0 on
the calling thread; the transfers share no mutable state, so index order is
observationally equivalent. -/
def runTransfers (env : Env) : List (PythonBufferTree × Nat) → List Nat → TState →
    List (Except Status BufTree) × TState
  | (t, o) :: args, sid :: sids, st =>
    let r := TransferHostToDeviceAsync env t o sid st
    let r2 := runTransfers env args sids r.2
    (r.1 :: r2.1, r2.2)
  | _, _, st => ([], st)

/-- Completion barrier of `PyLocalBuffer::FromPythonValues`: block the host
on every borrowed stream, in index order, before looking at any transfer
outcome. -/
def blockAll (sids : List Nat) (st : TState) : TState :=
  { st with events := st.events ++ sids.map Ev.blockHostUntilDone }

/-- Result-collection loop of `PyLocalBuffer::FromPythonValues`: materialize
the outputs in index order, returning the first failed transfer status
(`TF_ASSIGN_OR_RETURN(outputs[i], ...)`). -/
def collectOutputs : List (Except Status BufTree) → Except Status (List PyLocalBuffer)
  | [] => .ok []
  | .error e :: _ => .error e
  | .ok sb :: rest =>
    match collectOutputs rest with
    | .error e => .error e
    | .ok bs => .ok (⟨some sb⟩ :: bs)

/-- Model of `PyLocalBuffer::FromPythonValues`.  The Python values have
already been flattened to `PythonBufferTree`s (the `GetPythonBufferTree`
loop, which precedes everything else in the source).  An empty argument list
returns an empty output vector before any stream is borrowed; otherwise one
stream per argument is borrowed up front, all transfers are submitted, every
stream is drained (`BlockHostUntilDone`, keeping the host and device views
consistent), and only then are the outcomes collected in index order. -/
def PyLocalBuffer.FromPythonValues (env : Env)
    (arguments : List (PythonBufferTree × Nat)) (st : TState) :
    (Except Status (List PyLocalBuffer)) × TState :=
  if arguments.length = 0 then (.ok [], st)
  else
    match borrowAll env (arguments.map Prod.snd) st with
    | (.error e, st2) => (.error e, st2)
    | (.ok sids, st2) =>
      let r := runTransfers env arguments sids st2
      let st3 := blockAll sids r.2
      (collectOutputs r.1, st3)

/-- Model of `PyLocalBuffer::Release`: move the shaped buffer out and leave
the optional empty.  On an already-consumed buffer the source dereferences
an empty `absl::optional` (`*shaped_buffer_`), which does not return; this
is the `crash` outcome. -/
def PyLocalBuffer.Release (b : PyLocalBuffer) : Outcome BufTree × PyLocalBuffer :=
  match b.shaped_buffer_ with
  | none => (.crash "dereference of empty optional shaped buffer", b)
  | some sb => (.ok sb, ⟨none⟩)

/-- Sequence a list of optional host leaves, failing on the first missing
one. -/
def seqOpts : List (Option HostLeaf) → Option (List HostLeaf)
  | [] => some []
  | none :: _ => none
  | some v :: r =>
    match seqOpts r with
    | none => none
    | some vs => some (v :: vs)

/-- Modelled from the spec: `LocalClient::ShapedBufferToLiteral` (the
device-to-host readback used by `PyLocalBuffer::ToPython`) is not part of
this source file; per the spec it produces the same shape-plus-ordered-leaf
structure from device memory, blocking until the copy is done.  Reading a
leaf region that was never written is modelled as an error. -/

def shapedBufferToLiteral (sb : BufTree) : Except Status PythonBufferTree :=
  match seqOpts sb.leafVals with
  | none => .error ⟨.internalError, "read of unwritten device memory"⟩
  | some vals => .ok ⟨sb.shapeOf, vals⟩

/-- Model of `PyLocalBuffer::ToPython`: read the shaped buffer back into a
host value (`ShapedBufferToLiteral` then `LiteralToPython`; the latter is
the host-marshalling collaborator and is the identity at this level of
modelling).  The `*shaped_buffer()` access on a consumed buffer calls
`absl::optional::value()` on an empty optional, which does not return a
`Status`; this is the `crash` outcome. -/
def PyLocalBuffer.ToPython (b : PyLocalBuffer) : Outcome PythonBufferTree :=
  match b.shaped_buffer_ with
  | none => .crash "value called on empty optional shaped buffer"
  | some sb =>
    match shapedBufferToLiteral sb with
    | .error e => .err e
    | .ok t => .ok t

/-- Remains of the released parent buffer after the per-element moves of
`PyLocalBuffer::DestructureTuple`: the element subtrees have been zeroed
(each moved handle is overwritten with `se::DeviceMemoryBase()`), while the
root handle (the tuple index table) is untouched and is freed when the local
`ScopedShapedBuffer` goes out of scope. -/
def destructureLeftover : BufTree → BufTree
  | .tupleBuf mem cs => .tupleBuf mem (BufTree.zeroList cs)
  | b => b

/-- Model of `PyLocalBuffer::DestructureTuple`: fails with `InvalidArgument`
on a non-tuple shape (without consuming the buffer); otherwise releases the
buffer and walks each tuple element subtree, moving every device-memory
handle of that subtree into a fresh child buffer and nulling the parent
entry, so child `i` owns exactly the subtree of element `i`.  The `shape()`
call on a consumed buffer hits the empty optional, which is the `crash`
outcome. -/
def PyLocalBuffer.DestructureTuple (b : PyLocalBuffer) :
    Outcome (List PyLocalBuffer) × PyLocalBuffer :=
  match b.shaped_buffer_ with
  | none => (.crash "value called on empty optional shaped buffer", b)
  | some sb =>
    match sb with
    | .leafBuf lay mem =>
      (.err ⟨.invalidArgument,
        "Attempted to destructure a PyLocalBuffer that did not have a tuple shape"⟩,
       ⟨some (.leafBuf lay mem)⟩)
    | .tupleBuf _ cs =>
      (.ok (cs.map fun c => PyLocalBuffer.mk (some c)), ⟨none⟩)

/-- Model of `PyLocalClient` as far as the dispatcher needs it: the number
of usable devices (`LocalClient::device_count`); `PyLocalClient::Get` fails
when it is zero, so a constructed client has at least one device. -/
structure PyLocalClient where
  device_count : Nat

/-- Model of `PyLocalExecutable`: the compiled program is opaque (it lives
in `Env.run`); the executable itself carries the device assignment, one
device ordinal per replica (computation count is always 1 in this file). -/
structure PyLocalExecutable where
  device_assignment : List Nat

/-- Declared replica count of an executable
(`DeviceAssignment::replica_count`). -/
def PyLocalExecutable.num_replicas (ex : PyLocalExecutable) : Nat :=
  ex.device_assignment.length

/-- Argument-gathering loop shared by `Execute` and the `ExecutePerReplica`
lambda: `handle->shaped_buffer()` for every handle.  On a consumed handle
this is `absl::optional::value()` on an empty optional, the `crash`
outcome. -/
def gatherArgs : List PyLocalBuffer → Outcome (List BufTree)
  | [] => .ok []
  | b :: bs =>
    match b.shaped_buffer_ with
    | none => .crash "value called on empty optional shaped buffer"
    | some sb =>
      match gatherArgs bs with
      | .ok sbs => .ok (sb :: sbs)
      | .err e => .err e
      | .crash m => .crash m

/-- Message format of the `InvalidArgument` error returned by `Execute` when
the executable was compiled for more than one replica. -/
def executeWrongReplicasMsg (n : Nat) : String :=
  "Attempted to execute computation with " ++ toString n ++ " replicas using Execute"

/-- Model of `PyLocalExecutable::Execute`: valid only for a one-replica
executable; resolves replica 0 to its device ordinal, gathers the argument
shaped buffers, runs the program synchronously, and wraps the result.  A
run failure is returned as-is (`result_buffer_status.status()`), with no
annotation. -/
def PyLocalExecutable.Execute (ex : PyLocalExecutable) (env : Env)
    (argument_handles : List PyLocalBuffer) : Outcome PyLocalBuffer :=
  if ex.num_replicas ≠ 1 then
    .err ⟨.invalidArgument, executeWrongReplicasMsg ex.num_replicas⟩
  else
    match gatherArgs argument_handles with
    | .crash m => .crash m
    | .err e => .err e
    | .ok bufs =>
      match env.run (ex.device_assignment.getD 0 0) bufs with
      | .error e => .err e
      | .ok sb => .ok ⟨some sb⟩

/-- Model of the per-replica `execute` lambda of
`PyLocalExecutable::ExecutePerReplica`: resolve the replica to its device
ordinal, gather that replica's argument buffers, and run the program. -/
def executeReplica (ex : PyLocalExecutable) (env : Env)
    (argument_handles : List (List PyLocalBuffer)) (replica : Nat) :
    Outcome BufTree :=
  match gatherArgs (argument_handles.getD replica []) with
  | .crash m => .crash m
  | .err e => .err e
  | .ok bufs =>
    match env.run (ex.device_assignment.getD replica 0) bufs with
    | .error e => .err e
    | .ok sb => .ok sb

/-- Annotation appended (`AppendStatus`) to a failed replica's status before
it is returned from `ExecutePerReplica`. -/
def replicaMsg (r : Nat) : String :=
  "while running replica " ++ toString r ++
    " of a replicated computation (other replicas may have failed as well)"

/-- First crash among the per-replica outcomes: a crash on any worker thread
takes the whole process down before results can be collected. -/
def firstCrash : List (Outcome BufTree) → Option String
  | [] => none
  | .crash m :: _ => some m
  | _ :: rest => firstCrash rest

/-- Result-wrapping loop of `ExecutePerReplica`: walk the per-replica
outcomes in replica-index order; the first failure (by index, not by
completion order) is returned, annotated with its replica number; otherwise
every result is wrapped as a `PyLocalBuffer`. -/
def wrapResults : List (Outcome BufTree) → Nat → Outcome (List PyLocalBuffer)
  | [], _ => .ok []
  | .err e :: _, r => .err (appendStatus e (replicaMsg r))
  | .crash m :: _, _ => .crash m
  | .ok sb :: rest, r =>
    match wrapResults rest (r + 1) with
    | .ok bs => .ok (⟨some sb⟩ :: bs)
    | .err e => .err e
    | .crash m => .crash m

/-- Model of `PyLocalExecutable::ExecutePerReplica`.  The argument list must
have one entry per declared replica and at most one per device, else
`InvalidArgument` before any device work.  One replica runs on the calling
thread; several replicas are dispatched to the per-device worker threads and
the caller waits until all have finished (on a failure it still waits,
bounded by the deadlock timeout) before collecting results by replica index.
The second component records which replicas were actually run to completion
before the result was reported; the timeout-expiry process abort is not
representable here, so the model covers runs in which every replica
terminates (the hypothesis under every claim that uses it). -/
def PyLocalExecutable.ExecutePerReplica (ex : PyLocalExecutable) (env : Env)
    (client : PyLocalClient) (argument_handles : List (List PyLocalBuffer)) :
    Outcome (List PyLocalBuffer) × List Nat :=
  if argument_handles.length ≠ ex.num_replicas then
    (.err ⟨.invalidArgument,
      "Attempted to execute with a number of replicas different from the replica count"⟩,
     [])
  else if argument_handles.length > client.device_count then
    (.err ⟨.invalidArgument,
      "Attempted to execute with more replicas than there are devices"⟩,
     [])
  else
    let results := (List.range ex.num_replicas).map
      (executeReplica ex env argument_handles)
    match firstCrash results with
    | some m => (.crash m, List.range ex.num_replicas)
    | none => (wrapResults results 0, List.range ex.num_replicas)

/-- Model of `xla::ExecutableBuildOptions` as used by `Compile`: an optional
result-layout override and the replica count. -/
structure ExecutableBuildOptions where
  result_layout : Option Shape := none
  num_replicas : Nat := 1

/-- External collaborators of `PyLocalExecutable::Compile`: the layout
service, the program-shape query on the computation, the compiler itself
(the produced `LocalExecutable` is opaque), and the computation placer. -/
structure CompileEnv where
  chooseCompactLayoutForShape : Shape → Except Status Shape
  getProgramShapeResult : Except Status Shape
  compile : List Shape → ExecutableBuildOptions → Except Status Unit
  assignDevices : Nat → Except Status (List Nat)

mutual
/-- Model of the `assign_layouts` lambda of `PyLocalExecutable::Compile`:
walk every subshape (`ShapeUtil::ForEachMutableSubshapeWithStatus`); for an
array subshape without a layout, set the default layout
(`LayoutUtil::SetToDefaultLayout`, modelled as layout 0) and replace the
subshape by the layout service's compact choice; the walk stops at the first
error, which is returned alongside the shape as mutated so far. -/
def assignLayouts (env : CompileEnv) : Shape → Option Status × Shape
  | .array (some l) => (none, .array (some l))
  | .array none =>
    match env.chooseCompactLayoutForShape (.array (some 0)) with
    | .error e => (some e, .array (some 0))
    | .ok s2 => (none, s2)
  | .tuple es =>
    let r := assignLayoutsList env es
    (r.1, .tuple r.2)

/-- Subshape walk of `assignLayouts` over the children of a tuple, stopping
at the first error. -/
def assignLayoutsList (env : CompileEnv) : List Shape → Option Status × List Shape
  | [] => (none, [])
  | s :: ss =>
    match assignLayouts env s with
    | (some e, s2) => (some e, s2 :: ss)
    | (none, s2) =>
      let r := assignLayoutsList env ss
      (r.1, s2 :: r.2)
end

/-- Model of `PyLocalExecutable::Compile`.  For every argument layout and
for the result layout it calls `assign_layouts`; as in the source, the
`Status` those two call sites produce is discarded (the calls appear in
statement position with no `TF_RETURN_IF_ERROR`), so only failures of the
program-shape query, the compiler, and the placer propagate. -/
def PyLocalExecutable.Compile (env : CompileEnv) (argument_layouts : List Shape)
    (build_options : Option ExecutableBuildOptions) :
    Except Status PyLocalExecutable :=
  let argument_layout_pointers :=
    argument_layouts.map fun l => (assignLayouts env l).2
  let options := build_options.getD {}
  match (match options.result_layout with
         | some r => Except.ok r
         | none => Except.map Shape.clearLayouts env.getProgramShapeResult) with
  | .error e => .error e
  | .ok result_layout0 =>
    let result_layout := (assignLayouts env result_layout0).2
    let options := { options with result_layout := some result_layout }
    match env.compile argument_layout_pointers options with
    | .error e => .error e
    | .ok _ =>
      match env.assignDevices options.num_replicas with
      | .error e => .error e
      | .ok da => .ok ⟨da⟩

mutual
/-- Pure content of `writeLeaves`: the outcome together with the number of
asynchronous copies submitted before returning. -/
def writeLeavesP : BufTree → List HostLeaf →
    (Except Status (BufTree × List HostLeaf)) × Nat
  | .leafBuf _ _, [] => (.error retCheckFailed, 0)
  | .leafBuf lay mem, v :: rest =>
    (.ok (.leafBuf lay ⟨mem.addr, some v⟩, rest), 1)
  | .tupleBuf mem cs, leaves =>
    match writeLeavesListP cs leaves with
    | (.error e, k) => (.error e, k)
    | (.ok r, k) => (.ok (.tupleBuf mem r.1, r.2), k)

/-- Pure content of `writeLeavesList`. -/
def writeLeavesListP : List BufTree → List HostLeaf →
    (Except Status (List BufTree × List HostLeaf)) × Nat
  | [], leaves => (.ok ([], leaves), 0)
  | c :: cs, leaves =>
    match writeLeavesP c leaves with
    | (.error e, k) => (.error e, k)
    | (.ok r, k) =>
      match writeLeavesListP cs r.2 with
      | (.error e, k2) => (.error e, k + k2)
      | (.ok r2, k2) => (.ok (r.1 :: r2.1, r2.2), k + k2)
end

/-- Number of array leaves below a list of buffer trees. -/
def leafCountBL (cs : List BufTree) : Nat :=
  Shape.leafCountList (BufTree.shapeOfList cs)

/-- Outcome of `TransferHostToDeviceAsync` as a function of the environment,
the tree, and the allocation base address. -/
def transferResultP (env : Env) (t : PythonBufferTree) (a : Nat) :
    Except Status BufTree :=
  match env.chooseCompactLayoutForShape t.shape with
  | .error e => .error e
  | .ok s =>
    match (writeLeavesP (allocBuf s a).1 t.leaves).1 with
    | .error e => .error e
    | .ok r => .ok r.1

/-- Next free device address after `TransferHostToDeviceAsync`. -/
def transferAddrP (env : Env) (t : PythonBufferTree) (a : Nat) : Nat :=
  match env.chooseCompactLayoutForShape t.shape with
  | .error _ => a
  | .ok s => (allocBuf s a).2

/-- Events emitted by `TransferHostToDeviceAsync` on stream `sid` starting
from allocation base `a`: nothing on a layout failure (it precedes the
allocation), otherwise the allocation, the tuple-index-table write, and one
copy submission per transferred leaf. -/
def transferEvsP (env : Env) (t : PythonBufferTree) (sid a : Nat) : List Ev :=
  match env.chooseCompactLayoutForShape t.shape with
  | .error _ => []
  | .ok s =>
    .alloc sid :: .submitCopy sid ::
      List.replicate (writeLeavesP (allocBuf s a).1 t.leaves).2 (.submitCopy sid)

/-- Error component of an `Except` result, if any. -/
def statusOf : Except Status α → Option Status
  | .error e => some e
  | .ok _ => none

/-- Success-or-failure of one host-to-device transfer, as a function of the
environment and the tree alone: the layout failure if any, else the
`TF_RET_CHECK` failure when the tree has fewer host leaves than the chosen
shape has array leaves, else success.  Device addresses and stream ids do
not influence it. -/
def transferStatus (env : Env) (t : PythonBufferTree) : Except Status Unit :=
  match env.chooseCompactLayoutForShape t.shape with
  | .error e => .error e
  | .ok s => if s.leafCount ≤ t.leaves.length then .ok () else .error retCheckFailed

/-- Outcomes of the transfers of a batch, threading the allocation base
address through in index order. -/
def transferResultsP (env : Env) : List (PythonBufferTree × Nat) → Nat →
    List (Except Status BufTree)
  | [], _ => []
  | (t, _) :: args, a =>
    transferResultP env t a :: transferResultsP env args (transferAddrP env t a)

/-- Next free device address after the transfers of a batch. -/
def transferAddrsP (env : Env) : List (PythonBufferTree × Nat) → Nat → Nat
  | [], a => a
  | (t, _) :: args, a => transferAddrsP env args (transferAddrP env t a)

/-- Events emitted by the transfers of a batch, in index order. -/
def transferEvsJoin (env : Env) : List (PythonBufferTree × Nat) → List Nat → Nat →
    List Ev
  | (t, _) :: args, sid :: sids, a =>
    transferEvsP env t sid a ++ transferEvsJoin env args sids (transferAddrP env t a)
  | _, _, _ => []

/-- Status returned by the concrete layout service below on the one shape it
rejects. -/
def layoutErrT : Status := ⟨.invalidArgument, "no layout for an empty tuple"⟩

/-- Concrete environment: the layout service rejects the empty tuple shape
and assigns layout 1 to arrays, streams always available, `Run` unused. -/
def envT : Env where
  chooseCompactLayoutForShape := fun s =>
    match s with
    | .tuple [] => .error layoutErrT
    | .array _ => .ok (.array (some 1))
    | s => .ok s
  borrowStream := fun _ => .ok ()
  run := fun _ _ => .error ⟨.unknown, "unused"⟩

/-- Concrete host value: one array leaf holding the payload 3. -/
def t0 : PythonBufferTree := ⟨.array none, [[3]]⟩

/-- Concrete host value whose layout resolution fails under `envT`. -/
def t1 : PythonBufferTree := ⟨.tuple [], []⟩

/-- Buffer already consumed by a first `Release`, for the C3
counterexample. -/
def consumedB : PyLocalBuffer :=
  (PyLocalBuffer.Release ⟨some (.leafBuf none ⟨1, some [2]⟩)⟩).2

/-- Intact one-element tuple buffer for the C6 counterexample: region 1 is
the root tuple index table, region 2 the array element. -/
def pC6 : PyLocalBuffer := ⟨some (.tupleBuf ⟨1, none⟩ [.leafBuf none ⟨2, some [5]⟩])⟩

/-- Two-replica executable mapped to devices 0 and 1. -/
def ex2 : PyLocalExecutable := ⟨[0, 1]⟩

/-- Single-device client. -/
def client1 : PyLocalClient := ⟨1⟩

/-- Status with which the concrete failing `Run` collaborator fails. -/
def runFailStatus : Status := ⟨.unknown, "replica run failed"⟩

/-- Environment whose compiled program fails on every run. -/
def envRunFail : Env :=
  ⟨Except.ok, fun _ => .ok (), fun _ _ => .error runFailStatus⟩

/-- One-replica executable mapped to device 0. -/
def ex1 : PyLocalExecutable := ⟨[0]⟩

/-- Status with which the concrete failing layout service of `cenvC2`
rejects every shape. -/
def layoutFailStatus : Status := ⟨.internalError, "layout service rejected the shape"⟩

/-- Compile environment whose layout service fails on every shape while the
program-shape query, the compiler and the placer all succeed. -/
def cenvC2 : CompileEnv where
  chooseCompactLayoutForShape := fun _ => .error layoutFailStatus
  getProgramShapeResult := .ok (.array none)
  compile := fun _ _ => .ok ()
  assignDevices := fun n => .ok (List.range n)

/-- Three-replica executable mapped to devices 0, 1, 2. -/
def ex3 : PyLocalExecutable := ⟨[0, 1, 2]⟩

/-- Three-device client. -/
def client3 : PyLocalClient := ⟨3⟩

/-- Result buffer produced by the successful replicas of `envC5`. -/
def bufX : BufTree := .leafBuf (some 1) ⟨7, some [4]⟩

/-- Environment in which the replica on device 1 fails and the others
succeed. -/
def envC5 : Env :=
  ⟨Except.ok, fun _ => .ok (),
   fun ord _ => if ord = 1 then .error runFailStatus else .ok bufX⟩

set_option maxRecDepth 4000

mutual
theorem writeLeaves_eq (b : BufTree) (ls : List HostLeaf) (sid : Nat) (st : TState) :
    writeLeaves sid b ls st =
      ((writeLeavesP b ls).1,
       { st with events := st.events ++
            List.replicate (writeLeavesP b ls).2 (Ev.submitCopy sid) }) := by
  cases b with
  | leafBuf lay mem =>
    cases ls with
    | nil => simp [writeLeaves, writeLeavesP]
    | cons v rest => simp [writeLeaves, writeLeavesP, TState.push]
  | tupleBuf mem cs =>
    simp only [writeLeaves, writeLeavesP]
    rw [writeLeavesList_eq cs ls sid st]
    rcases hw : writeLeavesListP cs ls with ⟨r, k⟩
    cases r with
    | error e => dsimp only
    | ok r1 => dsimp only

theorem writeLeavesList_eq (cs : List BufTree) (ls : List HostLeaf) (sid : Nat)
    (st : TState) :
    writeLeavesList sid cs ls st =
      ((writeLeavesListP cs ls).1,
       { st with events := st.events ++
            List.replicate (writeLeavesListP cs ls).2 (Ev.submitCopy sid) }) := by
  cases cs with
  | nil => simp [writeLeavesList, writeLeavesListP]
  | cons c cs =>
    simp only [writeLeavesList, writeLeavesListP]
    rw [writeLeaves_eq c ls sid st]
    rcases hw : writeLeavesP c ls with ⟨r, k⟩
    cases r with
    | error e => dsimp only
    | ok r1 =>
      dsimp only
      rw [writeLeavesList_eq cs r1.2 sid
        ({ st with events := st.events ++ List.replicate k (Ev.submitCopy sid) })]
      rcases hw2 : writeLeavesListP cs r1.2 with ⟨r2, k2⟩
      cases r2 with
      | error e => dsimp only; rw [List.replicate_add, List.append_assoc]
      | ok r3 => dsimp only; rw [List.replicate_add, List.append_assoc]
end

theorem leafCountB_leaf (lay : Option Nat) (mem : DeviceMemoryBase) :
    leafCountB (.leafBuf lay mem) = 1 := by
  simp [leafCountB, BufTree.shapeOf, Shape.leafCount]

theorem leafCountB_tuple (mem : DeviceMemoryBase) (cs : List BufTree) :
    leafCountB (.tupleBuf mem cs) = leafCountBL cs := by
  simp [leafCountB, leafCountBL, BufTree.shapeOf, Shape.leafCount]

theorem leafCountBL_nil : leafCountBL [] = 0 := by
  simp [leafCountBL, BufTree.shapeOfList, Shape.leafCountList]

theorem leafCountBL_cons (c : BufTree) (cs : List BufTree) :
    leafCountBL (c :: cs) = leafCountB c + leafCountBL cs := by
  simp [leafCountBL, leafCountB, BufTree.shapeOfList, Shape.leafCountList]

mutual
theorem writeLeavesP_char (b : BufTree) (ls : List HostLeaf) :
    if leafCountB b ≤ ls.length then
      ∃ b2, writeLeavesP b ls = (.ok (b2, ls.drop (leafCountB b)), leafCountB b) ∧
        b2.shapeOf = b.shapeOf ∧ b2.leafVals = (ls.take (leafCountB b)).map some
    else (writeLeavesP b ls).1 = .error retCheckFailed := by
  cases b with
  | leafBuf lay mem =>
    rw [leafCountB_leaf]
    cases ls with
    | nil => simp [writeLeavesP]
    | cons v rest =>
      rw [if_pos (by simp)]
      exact ⟨.leafBuf lay ⟨mem.addr, some v⟩, by
        simp [writeLeavesP, BufTree.shapeOf, BufTree.leafVals]⟩
  | tupleBuf mem cs =>
    rw [leafCountB_tuple]
    have h := writeLeavesListP_char cs ls
    by_cases hle : leafCountBL cs ≤ ls.length
    · rw [if_pos hle] at h ⊢
      obtain ⟨cs2, hw, hsh, hlv⟩ := h
      refine ⟨.tupleBuf mem cs2, ?_, ?_, ?_⟩
      · simp only [writeLeavesP]
        rw [hw]
      · simp [BufTree.shapeOf, hsh]
      · simp [BufTree.leafVals, hlv]
    · rw [if_neg hle] at h ⊢
      simp only [writeLeavesP]
      rcases hw : writeLeavesListP cs ls with ⟨r, k⟩
      rw [hw] at h
      cases r with
      | error e => simpa using h
      | ok r1 => simp at h

theorem writeLeavesListP_char (cs : List BufTree) (ls : List HostLeaf) :
    if leafCountBL cs ≤ ls.length then
      ∃ cs2, writeLeavesListP cs ls =
          (.ok (cs2, ls.drop (leafCountBL cs)), leafCountBL cs) ∧
        BufTree.shapeOfList cs2 = BufTree.shapeOfList cs ∧
        BufTree.leafValsList cs2 = (ls.take (leafCountBL cs)).map some
    else (writeLeavesListP cs ls).1 = .error retCheckFailed := by
  cases cs with
  | nil =>
    rw [leafCountBL_nil, if_pos (Nat.zero_le _)]
    exact ⟨[], by simp [writeLeavesListP, BufTree.shapeOfList, BufTree.leafValsList]⟩
  | cons c cs =>
    rw [leafCountBL_cons]
    have hc := writeLeavesP_char c ls
    by_cases h1 : leafCountB c ≤ ls.length
    · rw [if_pos h1] at hc
      obtain ⟨c2, hwc, hshc, hlvc⟩ := hc
      have hcs := writeLeavesListP_char cs (ls.drop (leafCountB c))
      by_cases h2 : leafCountB c + leafCountBL cs ≤ ls.length
      · rw [if_pos h2]
        have h2' : leafCountBL cs ≤ (ls.drop (leafCountB c)).length := by
          simp [List.length_drop]; omega
        rw [if_pos h2'] at hcs
        obtain ⟨cs2, hwcs, hshcs, hlvcs⟩ := hcs
        refine ⟨c2 :: cs2, ?_, ?_, ?_⟩
        · simp only [writeLeavesListP]
          rw [hwc]
          simp only
          rw [hwcs]
          simp only [List.drop_drop]
        · simp [BufTree.shapeOfList, hshc, hshcs]
        · simp only [BufTree.leafValsList, hlvc, hlvcs]
          rw [← List.map_append, ← List.take_add]
      · rw [if_neg h2]
        have h2' : ¬ leafCountBL cs ≤ (ls.drop (leafCountB c)).length := by
          simp [List.length_drop]; omega
        rw [if_neg h2'] at hcs
        simp only [writeLeavesListP]
        rw [hwc]
        simp only
        rcases hw2 : writeLeavesListP cs (ls.drop (leafCountB c)) with ⟨r2, k2⟩
        rw [hw2] at hcs
        cases r2 with
        | error e => simpa using hcs
        | ok r3 => simp at hcs
    · rw [if_neg h1] at hc
      rw [if_neg (show ¬ leafCountB c + leafCountBL cs ≤ ls.length by omega)]
      simp only [writeLeavesListP]
      rcases hw : writeLeavesP c ls with ⟨r, k⟩
      rw [hw] at hc
      cases r with
      | error e => simpa using hc
      | ok r1 => simp at hc
end

mutual
theorem allocBuf_shapeOf (s : Shape) (a : Nat) : (allocBuf s a).1.shapeOf = s := by
  cases s with
  | array lay => simp [allocBuf, BufTree.shapeOf]
  | tuple es =>
    simp only [allocBuf, BufTree.shapeOf]
    exact congrArg Shape.tuple (allocBufList_shapeOf es (a + 1))

theorem allocBufList_shapeOf (ss : List Shape) (a : Nat) :
    BufTree.shapeOfList (allocBufList ss a).1 = ss := by
  cases ss with
  | nil => simp [allocBufList, BufTree.shapeOfList]
  | cons s ss =>
    simp only [allocBufList, BufTree.shapeOfList]
    exact congrArg₂ List.cons (allocBuf_shapeOf s a) (allocBufList_shapeOf ss _)
end

mutual
theorem clearLayouts_leafCount (s : Shape) :
    s.clearLayouts.leafCount = s.leafCount := by
  cases s with
  | array lay => simp [Shape.clearLayouts, Shape.leafCount]
  | tuple es =>
    simp only [Shape.clearLayouts, Shape.leafCount]
    exact clearLayoutsList_leafCount es

theorem clearLayoutsList_leafCount (ss : List Shape) :
    Shape.leafCountList (Shape.clearLayoutsList ss) = Shape.leafCountList ss := by
  cases ss with
  | nil => simp [Shape.clearLayoutsList, Shape.leafCountList]
  | cons s ss =>
    simp only [Shape.clearLayoutsList, Shape.leafCountList]
    exact congrArg₂ Nat.add (clearLayouts_leafCount s) (clearLayoutsList_leafCount ss)
end

theorem seqOpts_map_some (ls : List HostLeaf) : seqOpts (ls.map some) = some ls := by
  induction ls with
  | nil => simp [seqOpts]
  | cons v rest ih => simp [seqOpts, ih]

theorem regionsList_eq_join (cs : List BufTree) :
    BufTree.regionsList cs = (cs.map BufTree.regions).flatten := by
  induction cs with
  | nil => simp [BufTree.regionsList]
  | cons c cs ih => simp [BufTree.regionsList, ih]

theorem TransferHostToDeviceAsync_eq (env : Env) (t : PythonBufferTree)
    (ord sid : Nat) (st : TState) :
    TransferHostToDeviceAsync env t ord sid st =
      (transferResultP env t st.nextAddr,
       { st with nextAddr := transferAddrP env t st.nextAddr,
                 events := st.events ++ transferEvsP env t sid st.nextAddr }) := by
  unfold TransferHostToDeviceAsync transferResultP transferAddrP transferEvsP
  cases hc : env.chooseCompactLayoutForShape t.shape with
  | error e => simp
  | ok s =>
    simp only
    rw [writeLeaves_eq]
    rcases hw : writeLeavesP (allocBuf s st.nextAddr).1 t.leaves with ⟨r, k⟩
    cases r with
    | error e => simp [TState.push, List.append_assoc]
    | ok r1 => simp [TState.push, List.append_assoc]

theorem transferResultP_statusOf (env : Env) (t : PythonBufferTree) (a : Nat) :
    statusOf (transferResultP env t a) = statusOf (transferStatus env t) := by
  unfold transferResultP transferStatus
  cases hc : env.chooseCompactLayoutForShape t.shape with
  | error e => rfl
  | ok s =>
    simp only
    have h := writeLeavesP_char (allocBuf s a).1 t.leaves
    rw [leafCountB, allocBuf_shapeOf] at h
    by_cases hle : s.leafCount ≤ t.leaves.length
    · rw [if_pos hle] at h ⊢
      obtain ⟨b2, hw, -, -⟩ := h
      rw [hw]
      rfl
    · rw [if_neg hle] at h ⊢
      rcases hw : writeLeavesP (allocBuf s a).1 t.leaves with ⟨r, k⟩
      rw [hw] at h
      cases r with
      | error e => simp at h; rw [h]; rfl
      | ok r1 => simp at h

theorem statusOf_eq_none {x : Except Status α} (h : statusOf x = none) :
    ∃ v, x = .ok v := by
  cases x with
  | error e => simp [statusOf] at h
  | ok v => exact ⟨v, rfl⟩

theorem statusOf_eq_some {x : Except Status α} {e : Status}
    (h : statusOf x = some e) : x = .error e := by
  cases x with
  | error e2 => simp [statusOf] at h; rw [h]
  | ok v => simp [statusOf] at h

theorem FromPython_eq (env : Env) (t : PythonBufferTree) (ord : Nat) (st : TState)
    (hb : env.borrowStream ord = .ok ()) :
    PyLocalBuffer.FromPython env t ord st =
      match transferResultP env t st.nextAddr with
      | .error e =>
        (.error e,
         { st with nextStream := st.nextStream + 1,
                   nextAddr := transferAddrP env t st.nextAddr,
                   events := st.events ++ Ev.borrow ord ::
                     transferEvsP env t st.nextStream st.nextAddr })
      | .ok sb =>
        (.ok ⟨some sb⟩,
         { st with nextStream := st.nextStream + 1,
                   nextAddr := transferAddrP env t st.nextAddr,
                   events := (st.events ++ Ev.borrow ord ::
                     transferEvsP env t st.nextStream st.nextAddr) ++
                     [Ev.blockHostUntilDone st.nextStream] }) := by
  unfold PyLocalBuffer.FromPython
  rw [hb]
  simp only [TState.push]
  rw [TransferHostToDeviceAsync_eq]
  cases hr : transferResultP env t st.nextAddr with
  | error e => simp [List.append_assoc]
  | ok sb => simp [TState.push, List.append_assoc]

theorem borrowAll_ok (env : Env) (ords : List Nat) (st : TState)
    (hb : ∀ o ∈ ords, env.borrowStream o = .ok ()) :
    borrowAll env ords st =
      (.ok (List.range' st.nextStream ords.length),
       { st with nextStream := st.nextStream + ords.length,
                 events := st.events ++ ords.map Ev.borrow }) := by
  induction ords generalizing st with
  | nil => simp [borrowAll, List.range']
  | cons o os ih =>
    have hbo : env.borrowStream o = .ok () := hb o (by simp)
    simp only [borrowAll, hbo, TState.push]
    rw [ih _ (fun o2 ho2 => hb o2 (by simp [ho2]))]
    simp only [List.length_cons, List.range'_succ]
    simp [List.append_assoc]
    omega

theorem runTransfers_eq (env : Env) (args : List (PythonBufferTree × Nat))
    (sids : List Nat) (st : TState) (hlen : args.length = sids.length) :
    runTransfers env args sids st =
      (transferResultsP env args st.nextAddr,
       { st with nextAddr := transferAddrsP env args st.nextAddr,
                 events := st.events ++ transferEvsJoin env args sids st.nextAddr }) := by
  induction args generalizing sids st with
  | nil =>
    cases sids with
    | nil => simp [runTransfers, transferResultsP, transferAddrsP, transferEvsJoin]
    | cons s ss => simp at hlen
  | cons a args ih =>
    cases sids with
    | nil => simp at hlen
    | cons sid sids =>
      obtain ⟨t, o⟩ := a
      simp only [runTransfers, transferResultsP, transferAddrsP, transferEvsJoin]
      rw [TransferHostToDeviceAsync_eq]
      simp only
      rw [ih sids _ (by simpa using hlen)]
      simp [List.append_assoc]

theorem transferResultsP_length (env : Env) (args : List (PythonBufferTree × Nat))
    (a : Nat) : (transferResultsP env args a).length = args.length := by
  induction args generalizing a with
  | nil => simp [transferResultsP]
  | cons p args ih =>
    obtain ⟨t, o⟩ := p
    simp [transferResultsP, ih]

theorem transferResultsP_statusOf (env : Env) (args : List (PythonBufferTree × Nat))
    (a : Nat) (j : Nat) (hj : j < args.length)
    (hj2 : j < (transferResultsP env args a).length) :
    statusOf ((transferResultsP env args a)[j]) =
      statusOf (transferStatus env (args[j]).1) := by
  induction args generalizing a j with
  | nil => simp at hj
  | cons p args ih =>
    obtain ⟨t, o⟩ := p
    cases j with
    | zero => simpa [transferResultsP] using transferResultP_statusOf env t a
    | succ j =>
      have hj' : j < args.length := by simpa using hj
      simpa [transferResultsP] using
        ih (transferAddrP env t a) j hj' (by simp [transferResultsP_length]; omega)

theorem collectOutputs_err_at (rs : List (Except Status BufTree)) (i : Nat)
    (hi : i < rs.length) (e : Status)
    (hpre : ∀ j (hj : j < rs.length), j < i → ∃ v, rs[j] = .ok v)
    (he : rs[i] = .error e) :
    collectOutputs rs = .error e := by
  induction rs generalizing i with
  | nil => simp at hi
  | cons x rest ih =>
    cases i with
    | zero =>
      simp only [List.getElem_cons_zero] at he
      rw [he]
      rfl
    | succ i =>
      obtain ⟨v, hv⟩ := hpre 0 (by simp) (Nat.succ_pos i)
      simp only [List.getElem_cons_zero] at hv
      rw [hv]
      simp only [collectOutputs]
      rw [ih i (by simpa using hi)
        (fun j hj hji => by
          simpa using hpre (j + 1) (by simpa using hj) (by omega))
        (by simpa using he)]

theorem mem_transferEvsP (env : Env) (t : PythonBufferTree) (sid a : Nat)
    (x : Ev) (hx : x ∈ transferEvsP env t sid a) :
    x = .alloc sid ∨ x = .submitCopy sid := by
  unfold transferEvsP at hx
  cases hc : env.chooseCompactLayoutForShape t.shape with
  | error e => rw [hc] at hx; simp at hx
  | ok s =>
    rw [hc] at hx
    simp only [List.mem_cons] at hx
    rcases hx with h | h | h
    · exact Or.inl h
    · exact Or.inr h
    · exact Or.inr (List.eq_of_mem_replicate h)

theorem alloc_mem_transferEvsP (env : Env) (t : PythonBufferTree) (sid a : Nat)
    (s : Shape) (hc : env.chooseCompactLayoutForShape t.shape = .ok s) :
    Ev.alloc sid ∈ transferEvsP env t sid a := by
  unfold transferEvsP
  rw [hc]
  simp

theorem transferEvsP_layout_err (env : Env) (t : PythonBufferTree) (sid a : Nat)
    (e : Status) (hc : env.chooseCompactLayoutForShape t.shape = .error e) :
    transferEvsP env t sid a = [] := by
  unfold transferEvsP
  rw [hc]

theorem mem_transferEvsJoin (env : Env) (args : List (PythonBufferTree × Nat))
    (sids : List Nat) (a : Nat) (x : Ev) (hx : x ∈ transferEvsJoin env args sids a) :
    ∃ (j : Nat) (hj : j < args.length) (hj2 : j < sids.length) (a2 : Nat),
      x ∈ transferEvsP env (args[j]).1 (sids[j]) a2 := by
  induction args generalizing sids a with
  | nil => simp [transferEvsJoin] at hx
  | cons p args ih =>
    obtain ⟨t, o⟩ := p
    cases sids with
    | nil => simp [transferEvsJoin] at hx
    | cons sid sids =>
      simp only [transferEvsJoin, List.mem_append] at hx
      rcases hx with h | h
      · exact ⟨0, by simp, by simp, a, by simpa using h⟩
      · obtain ⟨j, hj, hj2, a2, hmem⟩ := ih sids (transferAddrP env t a) h
        exact ⟨j + 1, by simpa using hj, by simpa using hj2, a2, by simpa using hmem⟩

theorem transferEvsJoin_alloc_mem (env : Env) (args : List (PythonBufferTree × Nat))
    (sids : List Nat) (a : Nat) (j : Nat) (hj : j < args.length)
    (hj2 : j < sids.length) (s : Shape)
    (hc : env.chooseCompactLayoutForShape ((args[j]).1.shape) = .ok s) :
    Ev.alloc (sids[j]) ∈ transferEvsJoin env args sids a := by
  induction args generalizing sids a j with
  | nil => simp at hj
  | cons p args ih =>
    obtain ⟨t, o⟩ := p
    cases sids with
    | nil => simp at hj2
    | cons sid sids =>
      cases j with
      | zero =>
        simp only [List.getElem_cons_zero] at hc ⊢
        simp only [transferEvsJoin, List.mem_append]
        exact Or.inl (alloc_mem_transferEvsP env t sid a s hc)
      | succ j =>
        simp only [List.getElem_cons_succ] at hc ⊢
        simp only [transferEvsJoin, List.mem_append]
        exact Or.inr (ih sids (transferAddrP env t a) j (by simpa using hj)
          (by simpa using hj2) hc)

theorem FromPythonValues_eq (env : Env) (args : List (PythonBufferTree × Nat))
    (st : TState) (hne : args.length ≠ 0)
    (hords : ∀ p ∈ args, env.borrowStream p.2 = .ok ()) :
    PyLocalBuffer.FromPythonValues env args st =
      (collectOutputs (transferResultsP env args st.nextAddr),
       { st with nextStream := st.nextStream + args.length,
                 nextAddr := transferAddrsP env args st.nextAddr,
                 events := st.events ++ ((args.map Prod.snd).map Ev.borrow
                   ++ (transferEvsJoin env args
                        (List.range' st.nextStream args.length) st.nextAddr
                   ++ (List.range' st.nextStream args.length).map
                        Ev.blockHostUntilDone)) }) := by
  unfold PyLocalBuffer.FromPythonValues
  rw [if_neg hne]
  have hords2 : ∀ o ∈ args.map Prod.snd, env.borrowStream o = .ok () := by
    intro o ho
    obtain ⟨p, hp, hpo⟩ := List.mem_map.mp ho
    rw [← hpo]
    exact hords p hp
  rw [borrowAll_ok env _ st hords2]
  dsimp only
  rw [List.length_map]
  rw [runTransfers_eq env args _ _ (by simp [List.length_range'])]
  dsimp only
  unfold blockAll
  simp [List.append_assoc]

theorem transferStatus_ok_choose (env : Env) (t : PythonBufferTree)
    (h : transferStatus env t = .ok ()) :
    ∃ s, env.chooseCompactLayoutForShape t.shape = .ok s := by
  cases hc : env.chooseCompactLayoutForShape t.shape with
  | error e =>
    unfold transferStatus at h
    rw [hc] at h
    simp at h
  | ok s => exact ⟨s, rfl⟩

theorem transferStatus_layout_err (env : Env) (t : PythonBufferTree) (e : Status)
    (hc : env.chooseCompactLayoutForShape t.shape = .error e) :
    transferStatus env t = .error e := by
  unfold transferStatus
  rw [hc]

theorem firstCrash_none (rs : List (Outcome BufTree))
    (h : ∀ x ∈ rs, x.isCrash = false) : firstCrash rs = none := by
  induction rs with
  | nil => rfl
  | cons x rest ih =>
    cases x with
    | crash m =>
      have hx := h (.crash m) (by simp)
      simp [Outcome.isCrash] at hx
    | ok v =>
      simp only [firstCrash]
      exact ih fun y hy => h y (by simp [hy])
    | err e =>
      simp only [firstCrash]
      exact ih fun y hy => h y (by simp [hy])

theorem wrapResults_first_err (pre post : List (Outcome BufTree)) (e : Status)
    (r0 : Nat) (hpre : ∀ x ∈ pre, x.isOk = true) :
    wrapResults (pre ++ .err e :: post) r0
      = .err (appendStatus e (replicaMsg (r0 + pre.length))) := by
  induction pre generalizing r0 with
  | nil => simp [wrapResults]
  | cons x pre ih =>
    cases x with
    | ok sb =>
      simp only [List.cons_append, wrapResults, List.append_eq]
      rw [ih (r0 + 1) fun y hy => hpre y (by simp [hy])]
      simp only [List.length_cons]
      rw [show r0 + 1 + pre.length = r0 + (pre.length + 1) by omega]
    | err e2 =>
      have hx := hpre (.err e2) (by simp)
      simp [Outcome.isOk] at hx
    | crash m =>
      have hx := hpre (.crash m) (by simp)
      simp [Outcome.isOk] at hx

mutual
theorem zero_regions (b : BufTree) :
    (BufTree.zero b).regions = b.regions.map (fun _ => 0) := by
  cases b with
  | leafBuf lay mem => simp [BufTree.zero, BufTree.regions]
  | tupleBuf mem cs =>
    simp only [BufTree.zero, BufTree.regions, List.map_cons]
    exact congrArg (List.cons 0) (zeroList_regions cs)

theorem zeroList_regions (cs : List BufTree) :
    BufTree.regionsList (BufTree.zeroList cs)
      = (BufTree.regionsList cs).map (fun _ => 0) := by
  cases cs with
  | nil => simp [BufTree.zeroList, BufTree.regionsList]
  | cons c cs =>
    simp only [BufTree.zeroList, BufTree.regionsList, List.map_append]
    exact congrArg₂ List.append (zero_regions c) (zeroList_regions cs)
end

/-- C10: calling the batch transfer (`PyLocalBuffer::FromPythonValues`) with
an empty list of (tree, device ordinal) pairs succeeds with an empty result
vector and leaves the state untouched: no stream is borrowed and no device
work of any kind (allocation, copy, wait) is performed, as witnessed by the
unchanged event trace.  This is the `num_arguments == 0` early return, which
precedes the stream-borrowing loop. -/
theorem C10_empty_batch (env : Env) (st : TState) :
    PyLocalBuffer.FromPythonValues env [] st = (.ok [], st) := rfl

/-- C4 counterexample: the claim says `FromPython` returns the buffer handle
immediately after submitting the asynchronous leaf copies, without waiting
for completion — i.e. no `BlockHostUntilDone` happens during the call.  On
this concrete successful transfer the call does wait: the borrowed stream's
`blockHostUntilDone` event is in the trace of the call. -/
theorem C4_counterexample :
    statusOf (PyLocalBuffer.FromPython envT t0 0 {}).1 = none ∧
    Ev.blockHostUntilDone 0 ∈ (PyLocalBuffer.FromPython envT t0 0 {}).2.events := by
  exact ⟨rfl, by decide⟩

/-- C4 (amended): on a successful single-tree transfer, `FromPython`
submits the asynchronous leaf copies and then blocks the host on the
borrowed stream (`stream->BlockHostUntilDone()`, line 154) before returning
the buffer handle: the wait on the borrowed stream is the last event of the
call, so the returned buffer carries no pending device work. -/
theorem C4_fromPython_blocks (env : Env) (t : PythonBufferTree) (ord : Nat)
    (st : TState) (s2 : Shape)
    (hb : env.borrowStream ord = .ok ())
    (hc : env.chooseCompactLayoutForShape t.shape = .ok s2)
    (hlen : s2.leafCount ≤ t.leaves.length) :
    ∃ b E, (PyLocalBuffer.FromPython env t ord st).1 = .ok b ∧
      (PyLocalBuffer.FromPython env t ord st).2.events
        = (st.events ++ E) ++ [Ev.blockHostUntilDone st.nextStream] := by
  rw [FromPython_eq env t ord st hb]
  have hst : statusOf (transferResultP env t st.nextAddr) = none := by
    rw [transferResultP_statusOf]
    unfold transferStatus
    rw [hc]
    simp only
    rw [if_pos hlen]
    rfl
  obtain ⟨sb, hsb⟩ := statusOf_eq_none hst
  rw [hsb]
  exact ⟨⟨some sb⟩, Ev.borrow ord :: transferEvsP env t st.nextStream st.nextAddr,
    rfl, by simp⟩

/-- C4 witness: the amended theorem applied to the concrete transfer of `t0`
under `envT`. -/
theorem C4_witness :
    ∃ b E, (PyLocalBuffer.FromPython envT t0 0 {}).1 = .ok b ∧
      (PyLocalBuffer.FromPython envT t0 0 ({} : TState)).2.events
        = (([] : List Ev) ++ E) ++ [Ev.blockHostUntilDone 0] :=
  C4_fromPython_blocks envT t0 0 {} (.array (some 1)) rfl rfl (by decide)

/-- C3 counterexample: the claim says reuse of a released buffer fails with
an error, i.e. a `Status` is returned to the caller.  On this concrete
released buffer none of `ToPython`, `DestructureTuple`, `Release` returns an
error `Status`: each hits `absl::optional` access on the empty
`shaped_buffer_` (no emptiness check exists in the source), which does not
return to the caller at all. -/
theorem C3_counterexample :
    (PyLocalBuffer.ToPython consumedB).isStatusErr = false ∧
    ((PyLocalBuffer.DestructureTuple consumedB).1).isStatusErr = false ∧
    ((PyLocalBuffer.Release consumedB).1).isStatusErr = false ∧
    (PyLocalBuffer.ToPython consumedB).isCrash = true := ⟨rfl, rfl, rfl, rfl⟩

/-- C3 (amended): a second consumption never silently succeeds, but it does
not fail with a returned error `Status` either: after a `Release` or a
`DestructureTuple` the buffer's optional is empty, and a subsequent
`ToPython`, `DestructureTuple`, or `Release` performs an empty-optional
access (`absl::optional::value()` / `operator*`), which aborts or throws
instead of returning — the `crash` outcome. -/
theorem C3_consumed_use_crashes (b0 : PyLocalBuffer) (m : DeviceMemoryBase)
    (cs : List BufTree) (hb : b0.shaped_buffer_ = some (.tupleBuf m cs)) :
    (PyLocalBuffer.Release b0).2.shaped_buffer_ = none ∧
    (PyLocalBuffer.DestructureTuple b0).2.shaped_buffer_ = none ∧
    (PyLocalBuffer.ToPython (PyLocalBuffer.Release b0).2).isCrash = true ∧
    ((PyLocalBuffer.DestructureTuple (PyLocalBuffer.Release b0).2).1).isCrash = true ∧
    ((PyLocalBuffer.Release (PyLocalBuffer.Release b0).2).1).isCrash = true ∧
    (PyLocalBuffer.ToPython (PyLocalBuffer.DestructureTuple b0).2).isCrash = true ∧
    ((PyLocalBuffer.DestructureTuple
        (PyLocalBuffer.DestructureTuple b0).2).1).isCrash = true ∧
    ((PyLocalBuffer.Release (PyLocalBuffer.DestructureTuple b0).2).1).isCrash
      = true := by
  have hr : PyLocalBuffer.Release b0 = (.ok (.tupleBuf m cs), ⟨none⟩) := by
    unfold PyLocalBuffer.Release
    rw [hb]
  have hd : (PyLocalBuffer.DestructureTuple b0).2 = ⟨none⟩ := by
    unfold PyLocalBuffer.DestructureTuple
    rw [hb]
  rw [hr, hd]
  exact ⟨rfl, rfl, rfl, rfl, rfl, rfl, rfl, rfl⟩

/-- C3 witness: the amended theorem applied to a concrete intact tuple
buffer. -/
theorem C3_witness :
    (PyLocalBuffer.Release ⟨some (.tupleBuf ⟨1, none⟩ [])⟩).2.shaped_buffer_
        = none ∧
    (PyLocalBuffer.DestructureTuple
        ⟨some (.tupleBuf ⟨1, none⟩ [])⟩).2.shaped_buffer_ = none ∧
    (PyLocalBuffer.ToPython
        (PyLocalBuffer.Release ⟨some (.tupleBuf ⟨1, none⟩ [])⟩).2).isCrash = true ∧
    ((PyLocalBuffer.DestructureTuple
        (PyLocalBuffer.Release ⟨some (.tupleBuf ⟨1, none⟩ [])⟩).2).1).isCrash
      = true ∧
    ((PyLocalBuffer.Release
        (PyLocalBuffer.Release ⟨some (.tupleBuf ⟨1, none⟩ [])⟩).2).1).isCrash
      = true ∧
    (PyLocalBuffer.ToPython
        (PyLocalBuffer.DestructureTuple
          ⟨some (.tupleBuf ⟨1, none⟩ [])⟩).2).isCrash = true ∧
    ((PyLocalBuffer.DestructureTuple
        (PyLocalBuffer.DestructureTuple
          ⟨some (.tupleBuf ⟨1, none⟩ [])⟩).2).1).isCrash = true ∧
    ((PyLocalBuffer.Release
        (PyLocalBuffer.DestructureTuple
          ⟨some (.tupleBuf ⟨1, none⟩ [])⟩).2).1).isCrash = true :=
  C3_consumed_use_crashes ⟨some (.tupleBuf ⟨1, none⟩ [])⟩ ⟨1, none⟩ [] rfl

/-- C6 counterexample: the claim says the union of the regions owned by the
destructured children equals the parent's original regions.  On this
concrete tuple buffer the parent owns regions 1 (root tuple index table) and
2 (element), but the only child owns exactly region 2: the root region
belongs to no child, so the union is strictly smaller than the parent's
regions. -/
theorem C6_counterexample :
    (PyLocalBuffer.DestructureTuple pC6).1
        = .ok [⟨some (.leafBuf none ⟨2, some [5]⟩)⟩] ∧
    (1 : Nat) ∈ BufTree.regions (.tupleBuf ⟨1, none⟩ [.leafBuf none ⟨2, some [5]⟩]) ∧
    (1 : Nat) ∉
      (([.leafBuf none ⟨2, some [5]⟩] : List BufTree).map BufTree.regions).flatten := by
  exact ⟨rfl, by decide, by decide⟩

/-- C6 (amended): destructuring an intact tuple buffer with distinct regions
returns one child per element, and in index order the children own exactly
the parent's regions other than the root tuple-index-table region (which
moves to no child: it stays in the released temporary, whose destructor
frees it, so nothing is leaked); no region is owned by two children; the
moved entries of the parent's region tree are nulled and the parent handle
is left consumed. -/
theorem C6_destructure_partition (b : PyLocalBuffer) (m : DeviceMemoryBase)
    (cs : List BufTree) (hb : b.shaped_buffer_ = some (.tupleBuf m cs))
    (hnd : (BufTree.regions (.tupleBuf m cs)).Nodup) :
    (PyLocalBuffer.DestructureTuple b).1
        = .ok (cs.map fun c => PyLocalBuffer.mk (some c)) ∧
    (PyLocalBuffer.DestructureTuple b).2.shaped_buffer_ = none ∧
    (cs.map BufTree.regions).flatten = (BufTree.regions (.tupleBuf m cs)).tail ∧
    List.Pairwise List.Disjoint (cs.map BufTree.regions) ∧
    BufTree.regions (destructureLeftover (.tupleBuf m cs))
        = m.addr :: (BufTree.regionsList cs).map (fun _ => 0) := by
  refine ⟨?_, ?_, ?_, ?_, ?_⟩
  · unfold PyLocalBuffer.DestructureTuple
    rw [hb]
  · unfold PyLocalBuffer.DestructureTuple
    rw [hb]
  · rw [← regionsList_eq_join]
    simp [BufTree.regions]
  · have h2 : (BufTree.regionsList cs).Nodup := by
      simp only [BufTree.regions] at hnd
      exact hnd.of_cons
    rw [regionsList_eq_join] at h2
    exact (List.nodup_flatten.mp h2).2
  · unfold destructureLeftover
    simp only [BufTree.regions]
    exact congrArg (List.cons m.addr) (zeroList_regions cs)

/-- C6 witness: the amended theorem applied to a concrete two-element tuple
buffer with regions 1 (root), 2 and 3 (elements). -/
theorem C6_witness :
    (PyLocalBuffer.DestructureTuple
        ⟨some (.tupleBuf ⟨1, none⟩
          [.leafBuf none ⟨2, some [5]⟩, .leafBuf (some 0) ⟨3, none⟩])⟩).1
      = .ok ([.leafBuf none ⟨2, some [5]⟩, .leafBuf (some 0) ⟨3, none⟩].map
          fun c => PyLocalBuffer.mk (some c)) ∧
    (PyLocalBuffer.DestructureTuple
        ⟨some (.tupleBuf ⟨1, none⟩
          [.leafBuf none ⟨2, some [5]⟩,
           .leafBuf (some 0) ⟨3, none⟩])⟩).2.shaped_buffer_ = none ∧
    (([.leafBuf none ⟨2, some [5]⟩,
       .leafBuf (some 0) ⟨3, none⟩] : List BufTree).map BufTree.regions).flatten
      = (BufTree.regions (.tupleBuf ⟨1, none⟩
          [.leafBuf none ⟨2, some [5]⟩, .leafBuf (some 0) ⟨3, none⟩])).tail ∧
    List.Pairwise List.Disjoint
      (([.leafBuf none ⟨2, some [5]⟩,
         .leafBuf (some 0) ⟨3, none⟩] : List BufTree).map BufTree.regions) ∧
    BufTree.regions (destructureLeftover (.tupleBuf ⟨1, none⟩
        [.leafBuf none ⟨2, some [5]⟩, .leafBuf (some 0) ⟨3, none⟩]))
      = (1 : Nat) :: (BufTree.regionsList
          [.leafBuf none ⟨2, some [5]⟩, .leafBuf (some 0) ⟨3, none⟩]).map
            (fun _ => 0) :=
  C6_destructure_partition
    ⟨some (.tupleBuf ⟨1, none⟩
      [.leafBuf none ⟨2, some [5]⟩, .leafBuf (some 0) ⟨3, none⟩])⟩
    ⟨1, none⟩ [.leafBuf none ⟨2, some [5]⟩, .leafBuf (some 0) ⟨3, none⟩]
    rfl (by decide)

/-- C7: `ExecutePerReplica` with a per-replica argument list whose outer
length differs from the declared replica count, or exceeds the client's
device count, fails with `InvalidArgument` before any replica is run (the
two checks precede the dispatch loop), so no device work is performed: the
list of replicas run to completion is empty. -/
theorem C7_replica_count_enforced (ex : PyLocalExecutable) (env : Env)
    (client : PyLocalClient) (argss : List (List PyLocalBuffer))
    (h : argss.length ≠ ex.num_replicas ∨ client.device_count < argss.length) :
    ∃ msg, PyLocalExecutable.ExecutePerReplica ex env client argss
        = (.err ⟨.invalidArgument, msg⟩, []) := by
  unfold PyLocalExecutable.ExecutePerReplica
  by_cases h1 : argss.length ≠ ex.num_replicas
  · rw [if_pos h1]
    exact ⟨_, rfl⟩
  · rw [if_neg h1]
    have h2 : argss.length > client.device_count := by
      rcases h with h | h
      · exact absurd h h1
      · exact h
    rw [if_pos h2]
    exact ⟨_, rfl⟩

/-- C7 witness: the theorem applied to a one-entry argument list against the
two-replica executable `ex2`. -/
theorem C7_witness :
    ∃ msg, PyLocalExecutable.ExecutePerReplica ex2 envT client1 [[]]
        = (.err ⟨.invalidArgument, msg⟩, []) :=
  C7_replica_count_enforced ex2 envT client1 [[]] (Or.inl (by decide))

/-- C8 counterexample: the claim says `Execute` and single-entry
`ExecutePerReplica` return the same error on failure.  On this concrete
failing run, `Execute` returns the run's error unchanged while
`ExecutePerReplica` returns it with the replica annotation appended
(`AppendStatus`, lines 458-463), and the two `Status` values differ. -/
theorem C8_counterexample :
    PyLocalExecutable.Execute ex1 envRunFail [] = .err runFailStatus ∧
    (PyLocalExecutable.ExecutePerReplica ex1 envRunFail client1 [[]]).1
        = .err (appendStatus runFailStatus (replicaMsg 0)) ∧
    appendStatus runFailStatus (replicaMsg 0) ≠ runFailStatus := by
  exact ⟨rfl, rfl, by decide⟩

/-- C8 (amended): for a one-replica executable (and a client with at least
one device, which `PyLocalClient::Get` guarantees), `Execute` and
single-entry `ExecutePerReplica` agree on success — the same underlying
result buffer, the latter wrapped in a one-element vector — and fail for the
same underlying run error, which `ExecutePerReplica` additionally annotates
with the replica index while `Execute` returns it unchanged; `Execute` on an
executable whose replica count is not one fails with `InvalidArgument`. -/
theorem C8_single_replica_equivalence (ex : PyLocalExecutable) (env : Env)
    (client : PyLocalClient) (args : List PyLocalBuffer) (d : Nat)
    (bufs : List BufTree)
    (hex : ex.device_assignment = [d])
    (hdev : 1 ≤ client.device_count)
    (hargs : gatherArgs args = .ok bufs) :
    (∀ sb, env.run d bufs = .ok sb →
        PyLocalExecutable.Execute ex env args = .ok ⟨some sb⟩ ∧
        (PyLocalExecutable.ExecutePerReplica ex env client [args]).1
          = .ok [⟨some sb⟩]) ∧
    (∀ e, env.run d bufs = .error e →
        PyLocalExecutable.Execute ex env args = .err e ∧
        (PyLocalExecutable.ExecutePerReplica ex env client [args]).1
          = .err (appendStatus e (replicaMsg 0))) ∧
    (∀ exOther : PyLocalExecutable, exOther.num_replicas ≠ 1 →
        PyLocalExecutable.Execute exOther env args
          = .err ⟨.invalidArgument, executeWrongReplicasMsg exOther.num_replicas⟩) := by
  have hnum : ex.num_replicas = 1 := by
    simp [PyLocalExecutable.num_replicas, hex]
  have hED : PyLocalExecutable.Execute ex env args
      = (match env.run d bufs with
         | .error e => .err e
         | .ok sb => .ok ⟨some sb⟩) := by
    unfold PyLocalExecutable.Execute
    rw [if_neg (by rw [hnum]; simp), hargs, hex]
    rfl
  have hEPR : PyLocalExecutable.ExecutePerReplica ex env client [args]
      = (wrapResults [match env.run d bufs with
                      | .error e => .err e
                      | .ok sb => .ok sb] 0, [0]) := by
    unfold PyLocalExecutable.ExecutePerReplica
    rw [if_neg (by rw [hnum]; simp), if_neg (by simp; omega)]
    rw [hnum]
    have hrep : executeReplica ex env [args] 0
        = (match env.run d bufs with
           | .error e => .err e
           | .ok sb => .ok sb) := by
      unfold executeReplica
      simp only [List.getD]
      rw [show ([args].get? 0).getD [] = args from rfl, hargs, hex]
      rfl
    rw [show List.range 1 = [0] from rfl]
    simp only [List.map_cons, List.map_nil, hrep]
    cases hr : env.run d bufs with
    | error e => rfl
    | ok sb => rfl
  refine ⟨?_, ?_, ?_⟩
  · intro sb hr
    rw [hED, hEPR, hr]
    exact ⟨rfl, rfl⟩
  · intro e hr
    rw [hED, hEPR, hr]
    exact ⟨rfl, rfl⟩
  · intro exOther hno
    unfold PyLocalExecutable.Execute
    rw [if_pos hno]

/-- C8 witness: the amended theorem applied to the concrete failing run. -/
theorem C8_witness :
    PyLocalExecutable.Execute ex1 envRunFail [] = .err runFailStatus ∧
    (PyLocalExecutable.ExecutePerReplica ex1 envRunFail client1 [[]]).1
        = .err (appendStatus runFailStatus (replicaMsg 0)) :=
  (C8_single_replica_equivalence ex1 envRunFail client1 [] 0 [] rfl (by decide)
    rfl).2.1 runFailStatus rfl

/-- C2 (code bug): on this input the layout-assignment walk reports an error
for the argument layout (an array without a layout, sent to the failing
layout service) — and the same walk runs on the result layout — yet
`Compile` succeeds and returns an executable.  The source computes the
`Status` of `assign_layouts(&layout)` (line 498) and
`assign_layouts(&result_layout)` (line 515) in statement position and
discards it, against both the spec (which says the error propagates) and the
`TF_RETURN_IF_ERROR` convention used for every other fallible call in the
function. -/
theorem C2_compile_ignores_layout_error :
    (assignLayouts cenvC2 (.array none)).1 = some layoutFailStatus ∧
    PyLocalExecutable.Compile cenvC2 [.array none] none = .ok ⟨[0]⟩ := ⟨rfl, rfl⟩

theorem range_decomp (j n : Nat) (h : j < n) :
    List.range n = List.range' 0 j ++ j :: List.range' (j + 1) (n - j - 1) := by
  rw [List.range_eq_range']
  have h2 : List.range' j (n - j) = j :: List.range' (j + 1) (n - j - 1) := by
    have he : n - j = (n - j - 1) + 1 := by omega
    rw [he, List.range'_succ]
    congr 2
  rw [← h2]
  have h3 := List.range'_append 0 j (n - j) 1
  simp only [Nat.zero_add, Nat.one_mul] at h3
  rw [h3]
  congr 1
  omega

/-- C5: when the argument list is well-formed, every replica's execution
terminates (no crash; the model covers exactly the runs where every replica
finishes, which is the claim's within-the-timeout hypothesis), and at least
one replica fails, `ExecutePerReplica` returns the failure of the
lowest-index failing replica — by replica index, not completion order, since
the collection loop walks `results` in index order — annotated via
`AppendStatus` with which replica failed; and every replica, failing or not,
was run to completion before the error was reported (the trace component
lists all of them), so no non-failing replica's result is discarded before
the dispatcher has drained all replicas. -/
theorem C5_lowest_failing_replica (ex : PyLocalExecutable) (env : Env)
    (client : PyLocalClient) (argss : List (List PyLocalBuffer)) (j : Nat)
    (e : Status)
    (hlen : argss.length = ex.num_replicas)
    (hdev : argss.length ≤ client.device_count)
    (hnc : ∀ r, r < ex.num_replicas →
      (executeReplica ex env argss r).isCrash = false)
    (hj : j < ex.num_replicas)
    (hje : executeReplica ex env argss j = .err e)
    (hmin : ∀ k, k < j → (executeReplica ex env argss k).isOk = true) :
    PyLocalExecutable.ExecutePerReplica ex env client argss
      = (.err (appendStatus e (replicaMsg j)), List.range ex.num_replicas) := by
  unfold PyLocalExecutable.ExecutePerReplica
  rw [if_neg (by omega), if_neg (by omega)]
  have hcr : firstCrash ((List.range ex.num_replicas).map
      (executeReplica ex env argss)) = none := by
    apply firstCrash_none
    intro x hx
    obtain ⟨r, hr, hxr⟩ := List.mem_map.mp hx
    rw [← hxr]
    exact hnc r (List.mem_range.mp hr)
  simp only [hcr]
  rw [range_decomp j ex.num_replicas hj]
  rw [List.map_append, List.map_cons, hje]
  rw [wrapResults_first_err _ _ e 0 (by
    intro x hx
    obtain ⟨r, hr, hxr⟩ := List.mem_map.mp hx
    rw [← hxr]
    exact hmin r (by
      have := List.mem_range'_1.mp hr
      omega))]
  simp [List.length_map, List.length_range']

/-- C5 witness: the theorem applied to the spec's own example — replicas
{0 succeeds, 1 fails, 2 succeeds}: the returned error identifies replica 1
and all three replicas were drained. -/
theorem C5_witness :
    PyLocalExecutable.ExecutePerReplica ex3 envC5 client3 [[], [], []]
      = (.err (appendStatus runFailStatus (replicaMsg 1)), List.range 3) :=
  C5_lowest_failing_replica ex3 envC5 client3 [[], [], []] 1 runFailStatus
    (by decide) (by decide) (by decide) (by decide) rfl (by decide)

/-- C1 counterexample: the claim says that when layout resolution fails for
any tree in the batch, zero transfers are started and no device allocation
occurs.  In this concrete two-tree batch the second tree's layout resolution
fails and the whole call fails with that error, but the first tree's device
allocation and copy submissions did happen (events `alloc 0` and
`submitCopy 0` are in the trace): layout resolution runs inside each
per-tree transfer, not in a preparatory pass over the batch. -/
theorem C1_counterexample :
    envT.chooseCompactLayoutForShape t1.shape = .error layoutErrT ∧
    (PyLocalBuffer.FromPythonValues envT [(t0, 0), (t1, 0)] {}).1
        = .error layoutErrT ∧
    Ev.alloc 0 ∈ (PyLocalBuffer.FromPythonValues envT [(t0, 0), (t1, 0)] {}).2.events ∧
    Ev.submitCopy 0 ∈
      (PyLocalBuffer.FromPythonValues envT [(t0, 0), (t1, 0)] {}).2.events := by
  exact ⟨rfl, rfl, by decide, by decide⟩

/-- C1 (amended): when layout resolution fails for tree `i` of a batch (and
the other trees' transfers succeed), the whole call fails with that error,
reported only after every borrowed stream has been drained
(`BlockHostUntilDone`, index order); the failing tree itself gets no device
allocation and no copy submission, because its layout failure precedes its
allocation inside `TransferHostToDeviceAsync` — but each other tree's
transfer is started (its allocation appears in the trace), so the batch is
not atomic in the claimed sense. -/
theorem C1_batch_layout_failure (env : Env) (args : List (PythonBufferTree × Nat))
    (st : TState) (i : Nat) (e : Status)
    (hb : ∀ p ∈ args, env.borrowStream p.2 = .ok ())
    (hi : i < args.length)
    (he : env.chooseCompactLayoutForShape ((args[i]).1.shape) = .error e)
    (hok : ∀ (j : Nat) (hj : j < args.length), j ≠ i →
      transferStatus env (args[j]).1 = .ok ()) :
    (PyLocalBuffer.FromPythonValues env args st).1 = .error e ∧
    ∃ E, (PyLocalBuffer.FromPythonValues env args st).2.events = st.events ++ E ∧
      Ev.alloc (st.nextStream + i) ∉ E ∧
      Ev.submitCopy (st.nextStream + i) ∉ E ∧
      (∀ j : Nat, j < args.length →
        Ev.blockHostUntilDone (st.nextStream + j) ∈ E) ∧
      (∀ j : Nat, j < args.length → j ≠ i →
        Ev.alloc (st.nextStream + j) ∈ E) := by
  have hne : args.length ≠ 0 := by omega
  rw [FromPythonValues_eq env args st hne hb]
  have hsl : (List.range' st.nextStream args.length).length = args.length :=
    List.length_range' ..
  constructor
  · apply collectOutputs_err_at _ i (by rw [transferResultsP_length]; exact hi) e
    · intro k hk hki
      have hk2 : k < args.length := by rwa [transferResultsP_length] at hk
      have hst := transferResultsP_statusOf env args st.nextAddr k hk2 hk
      rw [hok k hk2 (by omega)] at hst
      exact statusOf_eq_none (by rw [hst]; rfl)
    · have hst := transferResultsP_statusOf env args st.nextAddr i hi
        (by rw [transferResultsP_length]; exact hi)
      rw [transferStatus_layout_err env _ e he] at hst
      exact statusOf_eq_some (by rw [hst]; rfl)
  · refine ⟨_, rfl, ?_, ?_, ?_, ?_⟩
    · intro hmem
      rcases List.mem_append.mp hmem with hmem | hmem
      · obtain ⟨o, -, hco⟩ := List.mem_map.mp hmem
        exact Ev.noConfusion hco
      rcases List.mem_append.mp hmem with hmem | hmem
      · obtain ⟨j2, hj2a, hj2s, a2, hx⟩ :=
          mem_transferEvsJoin env args _ st.nextAddr _ hmem
        rcases mem_transferEvsP env _ _ _ _ hx with hxx | hxx
        · rw [List.getElem_range'_1] at hxx
          have hij : i = j2 := by
            have := Ev.alloc.inj hxx
            omega
          subst hij
          rw [transferEvsP_layout_err env _ _ _ e he] at hx
          exact absurd hx (List.not_mem_nil _)
        · exact Ev.noConfusion hxx
      · obtain ⟨o, -, hco⟩ := List.mem_map.mp hmem
        exact Ev.noConfusion hco
    · intro hmem
      rcases List.mem_append.mp hmem with hmem | hmem
      · obtain ⟨o, -, hco⟩ := List.mem_map.mp hmem
        exact Ev.noConfusion hco
      rcases List.mem_append.mp hmem with hmem | hmem
      · obtain ⟨j2, hj2a, hj2s, a2, hx⟩ :=
          mem_transferEvsJoin env args _ st.nextAddr _ hmem
        rcases mem_transferEvsP env _ _ _ _ hx with hxx | hxx
        · exact Ev.noConfusion hxx
        · rw [List.getElem_range'_1] at hxx
          have hij : i = j2 := by
            have := Ev.submitCopy.inj hxx
            omega
          subst hij
          rw [transferEvsP_layout_err env _ _ _ e he] at hx
          exact absurd hx (List.not_mem_nil _)
      · obtain ⟨o, -, hco⟩ := List.mem_map.mp hmem
        exact Ev.noConfusion hco
    · intro j hj
      apply List.mem_append.mpr (Or.inr (List.mem_append.mpr (Or.inr _)))
      exact List.mem_map.mpr ⟨st.nextStream + j,
        List.mem_range'_1.mpr ⟨Nat.le_add_right .., by omega⟩, rfl⟩
    · intro j hj hji
      apply List.mem_append.mpr (Or.inr (List.mem_append.mpr (Or.inl _)))
      obtain ⟨s, hs⟩ := transferStatus_ok_choose env _ (hok j hj hji)
      have halloc := transferEvsJoin_alloc_mem env args
        (List.range' st.nextStream args.length) st.nextAddr j hj
        (by rw [hsl]; exact hj) s hs
      rwa [List.getElem_range'_1] at halloc

/-- C1 witness: the amended theorem applied to the concrete batch of
`C1_counterexample` (tree 0 transfers fine, tree 1's layout resolution
fails). -/
theorem C1_witness :
    (PyLocalBuffer.FromPythonValues envT [(t0, 0), (t1, 0)] {}).1
        = .error layoutErrT ∧
    ∃ E, (PyLocalBuffer.FromPythonValues envT [(t0, 0), (t1, 0)]
          ({} : TState)).2.events = ([] : List Ev) ++ E ∧
      Ev.alloc (0 + 1) ∉ E ∧
      Ev.submitCopy (0 + 1) ∉ E ∧
      (∀ j : Nat, j < ([(t0, 0), (t1, 0)] :
          List (PythonBufferTree × Nat)).length →
        Ev.blockHostUntilDone (0 + j) ∈ E) ∧
      (∀ j : Nat, j < ([(t0, 0), (t1, 0)] :
          List (PythonBufferTree × Nat)).length → j ≠ 1 →
        Ev.alloc (0 + j) ∈ E) :=
  C1_batch_layout_failure envT [(t0, 0), (t1, 0)] {} 1 layoutErrT
    (by intro p hp
        fin_cases hp <;> rfl)
    (by decide) rfl
    (by intro j hj hji
        have hj2 : j < 2 := by simpa using hj
        interval_cases j
        · rfl
        · exact absurd rfl hji)

/-- C9: round trip.  For a host value tree whose leaf count matches its
shape (the spec's `HostValueTree` invariant), a device ordinal whose stream
borrow succeeds, and a layout service that returns a structurally equal
compact shape (its contract: it only chooses layouts), transferring the tree
and reading the buffer back (`ToPython` after `FromPython`) reconstructs the
same host value: the identical leaf list, under the identical
layout-stripped shape (the host value is layout-agnostic; the device shape
carries the compact layouts the service chose).  The readback collaborator
`ShapedBufferToLiteral` is not in this source file and is modelled from the
spec as reading back exactly the bytes the transfer stored. -/
theorem C9_round_trip (env : Env) (t : PythonBufferTree) (ord : Nat)
    (st : TState) (s2 : Shape)
    (hb : env.borrowStream ord = .ok ())
    (hc : env.chooseCompactLayoutForShape t.shape = .ok s2)
    (hstruct : s2.clearLayouts = t.shape.clearLayouts)
    (hleaves : t.leaves.length = t.shape.leafCount) :
    ∃ b res,
      (PyLocalBuffer.FromPython env t ord st).1 = .ok b ∧
      PyLocalBuffer.ToPython b = .ok res ∧
      res.leaves = t.leaves ∧
      res.shape.clearLayouts = t.shape.clearLayouts := by
  have hcount : s2.leafCount = t.leaves.length := by
    rw [hleaves, ← clearLayouts_leafCount s2, hstruct, clearLayouts_leafCount]
  rw [FromPython_eq env t ord st hb]
  have h := writeLeavesP_char (allocBuf s2 st.nextAddr).1 t.leaves
  rw [leafCountB, allocBuf_shapeOf] at h
  rw [if_pos (le_of_eq hcount)] at h
  obtain ⟨b2, hw, hsh, hlv⟩ := h
  have hres : transferResultP env t st.nextAddr = .ok b2 := by
    unfold transferResultP
    rw [hc]
    simp only
    rw [hw]
  rw [hres]
  refine ⟨⟨some b2⟩, ⟨b2.shapeOf, t.leaves⟩, rfl, ?_, rfl, ?_⟩
  · unfold PyLocalBuffer.ToPython shapedBufferToLiteral
    simp only
    rw [hlv, hcount, List.take_length, seqOpts_map_some]
  · rw [hsh]
    exact hstruct

/-- C9 witness: the theorem applied to the concrete one-leaf host value `t0`
under `envT` (whose layout service maps `array none` to
`array (some 1)`). -/
theorem C9_witness :
    ∃ b res,
      (PyLocalBuffer.FromPython envT t0 0 {}).1 = .ok b ∧
      PyLocalBuffer.ToPython b = .ok res ∧
      res.leaves = t0.leaves ∧
      res.shape.clearLayouts = t0.shape.clearLayouts :=
  C9_round_trip envT t0 0 {} (.array (some 1)) rfl rfl rfl rfl
